import Mathlib

/-!
Verification of the chameleon plugin runtime (Go) against its specification.

The Go sources are shallowly embedded: each definition below translates one
Go function or type from the repository.  Atomic operations are modelled
sequentially (a CompareAndSwap whose expected value was just loaded always
succeeds), `time.Now()` is passed in explicitly as a nanosecond timestamp,
`sync.Map` becomes an association list, and a Go panic is modelled by
`Option` with `none` meaning "panicked".  Go's `int32`/`int64` wrap-around
on atomic adds and narrowing conversions is modelled with explicit
two's-complement reduction.
-/

namespace Chameleon

/-- Two's-complement reduction of an unbounded integer into `int32`
(used for `atomic.Int32.Add` and Go's `int32(...)` conversion). -/
def int32cast (n : Int) : Int :=
  (n + 2 ^ 31) % 2 ^ 32 - 2 ^ 31

/-- Two's-complement reduction into `int64` (used for `atomic.Int64.Add`). -/
def int64cast (n : Int) : Int :=
  (n + 2 ^ 63) % 2 ^ 64 - 2 ^ 63

/-- Association-list lookup; models `sync.Map.Load` (the `bool` result is
`Option`-ness here). -/
def lookupA {α : Type} : List (String × α) → String → Option α
  | [], _ => none
  | (k, v) :: rest, key => if k = key then some v else lookupA rest key

/-- Association-list store; models `sync.Map.Store` (replace or insert). -/
def storeA {α : Type} : List (String × α) → String → α → List (String × α)
  | [], key, v => [(key, v)]
  | (k, w) :: rest, key, v =>
    if k = key then (key, v) :: rest else (k, w) :: storeA rest key v

/-- Association-list delete; models `sync.Map.Delete`. -/
def removeA {α : Type} : List (String × α) → String → List (String × α)
  | [], _ => []
  | (k, v) :: rest, key =>
    if k = key then removeA rest key else (k, v) :: removeA rest key

/-- Get-or-create followed by an in-place update of the stored value;
models the `LoadOrStore` + mutation pattern used by the metrics collector. -/
def updA {α : Type} : List (String × α) → String → α → (α → α) → List (String × α)
  | [], key, d, f => [(key, f d)]
  | (k, v) :: rest, key, d, f =>
    if k = key then (k, f v) :: rest else (k, v) :: updA rest key d f

/-! ## Circuit breaker (pkg/plugin/circuit_breaker.go) -/

/-- `CircuitState`: `StateClosed = 0`, `StateOpen = 1`, `StateHalfOpen = 2`. -/
inductive CircuitState where
  | Closed
  | Open
  | HalfOpen
deriving Repr, DecidableEq

/-- `CircuitBreakerConfig` (config.go); durations are nanoseconds. -/
structure CircuitBreakerConfig where
  enabled : Bool
  maxFailures : Int
  resetIntervalNs : Int
  timeoutDurationNs : Int
deriving Repr, DecidableEq

/-- `CircuitBreaker`: the mutable fields `state`, `failures` (atomic int32)
and `lastFailure` (atomic int64 Unix-nanosecond timestamp) plus its config.
The reset timer, context and logger carry no registry-visible state. -/
structure CircuitBreaker where
  state : CircuitState
  failures : Int
  lastFailureNs : Int
  config : CircuitBreakerConfig
deriving Repr, DecidableEq

/-- `NewCircuitBreaker`: state `StateClosed`, atomics zero-initialised. -/
def newCircuitBreaker (config : CircuitBreakerConfig) : CircuitBreaker :=
  { state := CircuitState.Closed, failures := 0, lastFailureNs := 0, config := config }

/-- `CircuitBreaker.Allow` for a non-nil receiver, with `time.Now()` passed
as `nowNs`.  Returns the boolean result and the breaker after the
`Open → HalfOpen` side effect (the CAS succeeds in the sequential model). -/
def CircuitBreaker.allow (cb : CircuitBreaker) (nowNs : Int) : Bool × CircuitBreaker :=
  match cb.state with
  | CircuitState.Closed => (true, cb)
  | CircuitState.HalfOpen => (true, cb)
  | CircuitState.Open =>
    if nowNs - cb.lastFailureNs > cb.config.timeoutDurationNs then
      (true, { cb with state := CircuitState.HalfOpen, failures := 0 })
    else
      (false, cb)

/-- `CircuitBreaker.Allow` on a possibly-nil receiver: `nil` always allows. -/
def allowOpt : Option CircuitBreaker → Int → Bool × Option CircuitBreaker
  | none, _ => (true, none)
  | some cb, nowNs =>
    let r := cb.allow nowNs
    (r.1, some r.2)

/-- `CircuitBreaker.RecordSuccess` (non-nil receiver): if `HalfOpen`,
CAS to `Closed` and reset the failure counter; otherwise no-op. -/
def CircuitBreaker.recordSuccess (cb : CircuitBreaker) : CircuitBreaker :=
  if cb.state = CircuitState.HalfOpen then
    { cb with state := CircuitState.Closed, failures := 0 }
  else
    cb

/-- `CircuitBreaker.RecordFailure` (non-nil receiver): store the failure
timestamp, increment the counter (int32 add), and if the counter reached
`int32(MaxFailures)` perform `CompareAndSwap(StateClosed, StateOpen)` —
note the CAS only fires from `Closed`. -/
def CircuitBreaker.recordFailure (cb : CircuitBreaker) (nowNs : Int) : CircuitBreaker :=
  let failures := int32cast (cb.failures + 1)
  let st :=
    if failures ≥ int32cast cb.config.maxFailures then
      if cb.state = CircuitState.Closed then CircuitState.Open else cb.state
    else
      cb.state
  { cb with lastFailureNs := nowNs, failures := failures, state := st }

/-! ## Metrics collector (metrics source file) -/

/-- `MethodMetrics`: four atomic int64 fields, nanosecond durations. -/
structure MethodMetrics where
  count : Int
  totalTime : Int
  minTime : Int
  maxTime : Int
deriving Repr, DecidableEq

/-- Zero value of `MethodMetrics` (a freshly created `&MethodMetrics{}`). -/
def zeroMM : MethodMetrics :=
  { count := 0, totalTime := 0, minTime := 0, maxTime := 0 }

/-- One `RecordMetric` update of a single method's metrics: atomic adds for
count/total and the sequential collapse of the min/max CAS retry loops
(min uses `0` as the "unset" sentinel). -/
def MethodMetrics.record (mm : MethodMetrics) (durationNs : Int) : MethodMetrics :=
  { count := int64cast (mm.count + 1),
    totalTime := int64cast (mm.totalTime + durationNs),
    minTime := if mm.minTime = 0 ∨ durationNs < mm.minTime then durationNs else mm.minTime,
    maxTime := if durationNs > mm.maxTime then durationNs else mm.maxTime }

/-- `PluginMetrics`: enabled flag plus the plugin → (function → metrics)
two-level map. -/
structure PluginMetrics where
  enabled : Bool
  plugins : List (String × List (String × MethodMetrics))
deriving Repr, DecidableEq

/-- `PluginMetrics.RecordMetric`: no-op when disabled, else
`LoadOrStore` the plugin bucket, `LoadOrStore` the method bucket, and
update it. -/
def PluginMetrics.recordMetric (pm : PluginMetrics) (pluginName funcName : String)
    (durationNs : Int) : PluginMetrics :=
  if pm.enabled then
    { pm with plugins := (updA pm.plugins pluginName []
        (fun methods => updA methods funcName zeroMM (fun mm => mm.record durationNs))) }
  else
    pm

/-- Read one method's metrics bucket, `zeroMM` when absent (a bucket is
created lazily on first record). -/
def PluginMetrics.getMM (pm : PluginMetrics) (pluginName funcName : String) : MethodMetrics :=
  match lookupA pm.plugins pluginName with
  | none => zeroMM
  | some methods => (lookupA methods funcName).getD zeroMM

/-! ## Configuration (config.go) -/

/-- `LogLevel`. -/
inductive LogLevel where
  | Debug
  | Info
  | Warn
  | Error
deriving Repr, DecidableEq

/-- `PluginSpecificConfig`; `interface{}` values are modelled as strings,
durations as nanoseconds, `Options` as an association list. -/
structure PluginSpecificConfig where
  initArgs : List String
  circuitBreaker : CircuitBreakerConfig
  maxConcurrentCalls : Int
  pluginTimeoutNs : Int
  options : List (String × String)
deriving Repr, DecidableEq

/-- `Config`. -/
structure Config where
  pluginDir : String
  allowHotReload : Bool
  logLevel : LogLevel
  enableMetrics : Bool
  defaultPluginConfig : PluginSpecificConfig
  pluginConfigs : List (String × PluginSpecificConfig)
deriving Repr, DecidableEq

/-- `mergeConfig`: start from the default; each override field replaces it
under the source's guard (`len > 0`, `.Enabled`, `> 0`, `> 0`); the
override's option entries are written over the default's option map. -/
def mergeConfig (defaultConfig specificConfig : PluginSpecificConfig) : PluginSpecificConfig :=
  let merged := defaultConfig
  let merged := if specificConfig.initArgs.length > 0 then
      { merged with initArgs := specificConfig.initArgs } else merged
  let merged := if specificConfig.circuitBreaker.enabled then
      { merged with circuitBreaker := specificConfig.circuitBreaker } else merged
  let merged := if specificConfig.maxConcurrentCalls > 0 then
      { merged with maxConcurrentCalls := specificConfig.maxConcurrentCalls } else merged
  let merged := if specificConfig.pluginTimeoutNs > 0 then
      { merged with pluginTimeoutNs := specificConfig.pluginTimeoutNs } else merged
  { merged with options :=
      (specificConfig.options.foldl (fun o kv => storeA o kv.1 kv.2) merged.options) }

/-- `Config.GetPluginConfig`: merge when a per-plugin override exists,
else return the default. -/
def Config.getPluginConfig (c : Config) (pluginName : String) : PluginSpecificConfig :=
  match lookupA c.pluginConfigs pluginName with
  | some config => mergeConfig c.defaultPluginConfig config
  | none => c.defaultPluginConfig

/-- `validatePluginSpecificConfig`: `some msg` is the returned error. -/
def validatePluginSpecificConfig (config : PluginSpecificConfig) : Option String :=
  if config.maxConcurrentCalls < 0 then some "MaxConcurrentCalls cannot be negative"
  else if config.pluginTimeoutNs < 0 then some "PluginTimeout cannot be negative"
  else if config.circuitBreaker.enabled then
    if config.circuitBreaker.maxFailures ≤ 0 then
      some "CircuitBreaker MaxFailures must be positive"
    else if config.circuitBreaker.resetIntervalNs ≤ 0 then
      some "CircuitBreaker ResetInterval must be positive"
    else if config.circuitBreaker.timeoutDurationNs ≤ 0 then
      some "CircuitBreaker TimeoutDuration must be positive"
    else none
  else none

/-! ## Version comparison and path helpers (manager.go) -/

/-- `strings.Split` by a single separator character, on the character
list of a string (structural recursion so concrete inputs evaluate). -/
def splitOnChar (c : Char) : List Char → List (List Char)
  | [] => [[]]
  | x :: xs =>
    if x = c then [] :: splitOnChar c xs
    else
      match splitOnChar c xs with
      | [] => [[x]]
      | g :: gs => (x :: g) :: gs

/-- `strings.Split(s, ".")`. -/
def goSplitDot (s : String) : List String :=
  (splitOnChar '.' s.data).map (fun l => String.mk l)

/-- `strings.TrimPrefix(s, "v")`. -/
def goTrimLeadV (s : String) : String :=
  match s.data with
  | 'v' :: rest => String.mk rest
  | _ => s

/-- The padding loop of `isHigherVersion`: append `"0"` until the part
list has at least three entries. -/
def padTo3 (l : List String) : List String :=
  l ++ List.replicate (3 - l.length) "0"

/-- `strconv.Atoi` with the error discarded, as `isHigherVersion` uses it:
syntax errors yield 0, int64 range overflow yields the clamped extreme. -/
def goAtoi (s : String) : Int :=
  let signDigits : Bool × List Char :=
    match s.data with
    | '-' :: rest => (true, rest)
    | '+' :: rest => (false, rest)
    | cs => (false, cs)
  if signDigits.2 = [] ∨ ¬ (signDigits.2.all Char.isDigit) then 0
  else
    let n : Nat := signDigits.2.foldl (fun a c => a * 10 + (c.toNat - 48)) 0
    if signDigits.1 then
      if n ≥ 2 ^ 63 then -(2 ^ 63) else -(n : Int)
    else
      if n ≥ 2 ^ 63 then 2 ^ 63 - 1 else (n : Int)

/-- The comparison loop of `isHigherVersion`: iterate over the indices of
the first list, indexing the second list at the same position — `none`
models the index-out-of-range panic when the second list is shorter. -/
def cmpParts : List String → List String → Option Bool
  | [], _ => some false
  | a :: as, bs =>
    match bs with
    | [] => none
    | b :: bs' =>
      if goAtoi a > goAtoi b then some true
      else if goAtoi a < goAtoi b then some false
      else cmpParts as bs'

/-- `isHigherVersion(new, current)`: trim a leading `v`, split on `.`,
pad both to at least three parts, then compare part-wise. -/
def isHigherVersion (vnew vcur : String) : Option Bool :=
  cmpParts (padTo3 (goSplitDot (goTrimLeadV vnew))) (padTo3 (goSplitDot (goTrimLeadV vcur)))

/-- `strings.HasSuffix` on character lists. -/
def goHasSuffix (s suf : List Char) : Bool :=
  decide (suf.length ≤ s.length) && decide (s.drop (s.length - suf.length) = suf)

/-- `strings.TrimSuffix`. -/
def goTrimSuffix (s suf : String) : String :=
  if goHasSuffix s.data suf.data then String.mk (s.data.take (s.data.length - suf.data.length))
  else s

/-- `filepath.Base`: empty path is `"."`, trailing slashes are stripped,
then the last slash-separated element is kept (`"/"` if nothing is left). -/
def goFilepathBase (path : String) : String :=
  if path.data = [] then "."
  else
    let s := (path.data.reverse.dropWhile (fun c => c = '/')).reverse
    if s = [] then "/"
    else String.mk ((splitOnChar '/' s).getLastD s)

/-- `filepath.Ext` applied to a base name (no slash present): the suffix
beginning at the final dot, empty when there is no dot. -/
def goExt (base : String) : String :=
  let parts := splitOnChar '.' base.data
  if parts.length ≤ 1 then "" else String.mk ('.' :: parts.getLastD [])

/-- `getPluginNameFromPath`: `strings.TrimSuffix(filepath.Base(path),
filepath.Ext(base))`. -/
def getPluginNameFromPath (path : String) : String :=
  goTrimSuffix (goFilepathBase path) (goExt (goFilepathBase path))

/-! ## Plugin (plugin wrapper source file) -/

/-- Call-path errors (errors.go): the error values produced on the
`Call` path, plus the verbatim error a plugin function returns. -/
inductive CallErr where
  | pluginNotFound (name : String)
  | circuitBreakerOpen (name : String)
  | funcNotFound (name : String)
  | funcErr (msg : String)
deriving Repr, DecidableEq

/-- Load-path errors surfaced by `LoadPluginWithConfig`. -/
inductive LoadErr where
  | initFailure (msg : String)
deriving Repr, DecidableEq

/-- An `InvokeFunc`: the context is not modelled (cooperative
cancellation), arguments and results are strings. -/
abbrev FuncImpl : Type := List String → Except String String

/-- A loaded `*Plugin`: the bureau's version, the outcome its `Init`
returns for the arguments it will be given, the outcome of `Free`, and the
registered function table. -/
structure PluginCode where
  version : String
  initErr : Option String
  freeErr : Option String
  funcs : List (String × FuncImpl)

/-- `Plugin.Call`: look the function up in the table (`ErrFuncNotFound`
when absent) and invoke it, propagating its own error verbatim. -/
def PluginCode.call (p : PluginCode) (name : String) (args : List String) :
    Except CallErr String :=
  match lookupA p.funcs name with
  | none => Except.error (CallErr.funcNotFound name)
  | some fn =>
    match fn args with
    | Except.ok v => Except.ok v
    | Except.error e => Except.error (CallErr.funcErr e)

/-- `PluginState`: `StateActive`, `StateDeprecated`. -/
inductive PluginState where
  | Active
  | Deprecated
deriving Repr, DecidableEq

/-- A `PluginInstance` (named `PluginInst` here): the wrapped plugin, the
lifecycle state, and the cached version string. -/
structure PluginInst where
  plugin : PluginCode
  state : PluginState
  version : String

/-! ## Manager (manager.go) -/

/-- The `Manager`'s registry state: three independently synchronised maps
(instances, artifact paths, breakers), the metrics collector and the
configuration.  Watcher, contexts, errgroup and logger carry no
registry-visible state.  Stored breakers are always the non-nil result of
`NewCircuitBreaker`. -/
structure Manager where
  plugins : List (String × PluginInst)
  pluginPaths : List (String × String)
  breakers : List (String × CircuitBreaker)
  metrics : PluginMetrics
  config : Config

/-- `Manager.Call`: look up the instance (`ErrPluginNotFound` when
absent); assert the breaker map entry to `*CircuitBreaker` — on a missing
entry this is a type assertion on a nil interface value, i.e. a panic
(`none`); consult `Allow`; invoke; record failure or success on the
breaker; record a timing sample only on success with metrics enabled.
`time.Now()` and the measured duration are passed in as `nowNs`/`durNs`. -/
def Manager.call (m : Manager) (pluginName funcName : String) (args : List String)
    (nowNs durNs : Int) : Option (Except CallErr String × Manager) :=
  match lookupA m.plugins pluginName with
  | none => some (Except.error (CallErr.pluginNotFound pluginName), m)
  | some inst =>
    match lookupA m.breakers pluginName with
    | none => none
    | some breaker =>
      let ar := breaker.allow nowNs
      if ar.1 then
        match inst.plugin.call funcName args with
        | Except.error e =>
          some (Except.error e,
            { m with breakers := storeA m.breakers pluginName (ar.2.recordFailure nowNs) })
        | Except.ok v =>
          let m2 : Manager := { m with breakers := storeA m.breakers pluginName ar.2.recordSuccess }
          if m.metrics.enabled then
            some (Except.ok v, { m2 with metrics := m2.metrics.recordMetric pluginName funcName durNs })
          else
            some (Except.ok v, m2)
      else
        some (Except.error (CallErr.circuitBreakerOpen pluginName),
          { m with breakers := storeA m.breakers pluginName ar.2 })

/-- `n` consecutive invocations of `Manager.Call` with the same arguments,
threading the manager; `none` as soon as one call panics. -/
def callN (pluginName funcName : String) (args : List String) (nowNs durNs : Int) :
    Nat → Manager → Option Manager
  | 0, m => some m
  | Nat.succ k, m =>
    match m.call pluginName funcName args nowNs durNs with
    | none => none
    | some r => callN pluginName funcName args nowNs durNs k r.2

/-- Result of `LoadPluginWithConfig`: the manager afterwards, the returned
error, and whether `Free` was invoked on the just-loaded module. -/
structure LoadOutcome where
  manager : Manager
  err : Option LoadErr
  freedNew : Bool

/-- The tail of `LoadPluginWithConfig` after the version gate: run `Init`
(tear the module down and return the error on failure), else create the
breaker and install instance, path and breaker. -/
def finishLoad (m : Manager) (pluginName path : String) (loaded : PluginCode)
    (cfg : PluginSpecificConfig) : LoadOutcome :=
  match loaded.initErr with
  | some e => { manager := m, err := some (LoadErr.initFailure e), freedNew := true }
  | none =>
    let breaker := newCircuitBreaker cfg.circuitBreaker
    let inst : PluginInst :=
      { plugin := loaded, state := PluginState.Active, version := loaded.version }
    { manager := { m with
        plugins := storeA m.plugins pluginName inst,
        pluginPaths := storeA m.pluginPaths pluginName path,
        breakers := storeA m.breakers pluginName breaker },
      err := none, freedNew := false }

/-- `Manager.LoadPluginWithConfig`: derive the name from the path, default
the config, and (with the loader's `Load` already having produced
`loaded`; the dlopen/caching step is I/O) apply the version gate: if an
instance exists and the new version is not higher, free the new module and
return nil; otherwise mark the old instance deprecated in place and
proceed.  `none` is the index-out-of-range panic inside
`isHigherVersion`. -/
def Manager.loadPluginWithConfig (m : Manager) (path : String) (loaded : PluginCode)
    (config : Option PluginSpecificConfig) : Option LoadOutcome :=
  let pluginName := getPluginNameFromPath path
  let cfg := config.getD m.config.defaultPluginConfig
  match lookupA m.plugins pluginName with
  | none => some (finishLoad m pluginName path loaded cfg)
  | some oldInst =>
    match isHigherVersion loaded.version oldInst.version with
    | none => none
    | some false => some { manager := m, err := none, freedNew := true }
    | some true =>
      let m1 := { m with
        plugins := storeA m.plugins pluginName { oldInst with state := PluginState.Deprecated } }
      some (finishLoad m1 pluginName path loaded cfg)

/-- `Manager.IsCircuitBreakerOpen`: assert the breaker map entry (panic —
`none` — on a missing key), then report `!Allow()`, whose `Open →
HalfOpen` side effect persists on the stored breaker. -/
def Manager.isCircuitBreakerOpen (m : Manager) (pluginName : String) (nowNs : Int) :
    Option (Bool × Manager) :=
  match lookupA m.breakers pluginName with
  | none => none
  | some breaker =>
    let ar := breaker.allow nowNs
    some (!ar.1, { m with breakers := storeA m.breakers pluginName ar.2 })

/-- `Manager.GetBreakerStatus`: same body as `IsCircuitBreakerOpen`. -/
def Manager.getBreakerStatus (m : Manager) (pluginName : String) (nowNs : Int) :
    Option (Bool × Manager) :=
  match lookupA m.breakers pluginName with
  | none => none
  | some breaker =>
    let ar := breaker.allow nowNs
    some (!ar.1, { m with breakers := storeA m.breakers pluginName ar.2 })

/-- Result of `Manager.Close`: the manager afterwards, the names freed in
order, the collected `ErrPluginFree` errors, and the combined error. -/
structure CloseResult where
  manager : Manager
  freed : List String
  freeErrs : List (String × String)
  combinedErr : Option (List (String × String))

/-- The `plugins.Range` loop of `Close`: free each instance, collect its
error if any, and delete its key from the registry. -/
def closeLoop : List (String × PluginInst) → List (String × PluginInst) →
    List String → List (String × String) →
    List (String × PluginInst) × List String × List (String × String)
  | [], reg, freed, errs => (reg, freed, errs)
  | (name, inst) :: rest, reg, freed, errs =>
    let errs' :=
      match inst.plugin.freeErr with
      | some e => errs ++ [(name, e)]
      | none => errs
    closeLoop rest (removeA reg name) (freed ++ [name]) errs'

/-- `Manager.Close`: cancel background work, wait, close the watcher and
the breakers, sleep the grace interval (none of which touches the
registry), then run the cleanup loop; return the combined error exactly
when some teardown failed. -/
def Manager.close (m : Manager) : CloseResult :=
  let r := closeLoop m.plugins m.plugins [] []
  { manager := { m with plugins := r.1 },
    freed := r.2.1,
    freeErrs := r.2.2,
    combinedErr := if r.2.2.isEmpty then none else some r.2.2 }

/-! ## Spec-side definition used for the version-comparison refinement -/

/-- Strict lexicographic "greater" on equally long integer lists. -/
def lex3 : List Int → List Int → Bool
  | a :: as, b :: bs =>
    if a > b then true else if a < b then false else lex3 as bs
  | _, _ => false

/-- Modelled from the spec: the numeric value of one version part,
"non-numeric parts treated as zero" (a part is numeric when it is a
non-empty digit string). -/
def specPartNum (s : String) : Int :=
  if s.data ≠ [] ∧ s.data.all Char.isDigit then
    ((s.data.foldl (fun a c => a * 10 + (c.toNat - 48)) 0 : Nat) : Int)
  else 0

/-- Modelled from the spec: "three-part numeric comparison, missing parts
treated as zero, non-numeric parts treated as zero" — exactly the first
three parts of each version are compared lexicographically. -/
def specThreePartHigher (vnew vcur : String) : Bool :=
  lex3 (((padTo3 (goSplitDot (goTrimLeadV vnew))).take 3).map specPartNum)
       (((padTo3 (goSplitDot (goTrimLeadV vcur))).take 3).map specPartNum)

/-! ## Concrete fixtures (used to instantiate the general theorems) -/

/-- The breaker configuration the test suite uses. -/
def cbCfgW : CircuitBreakerConfig :=
  { enabled := true, maxFailures := 5, resetIntervalNs := 1000000000,
    timeoutDurationNs := 1000000000 }

/-- A per-plugin configuration with the test-suite breaker. -/
def pscW : PluginSpecificConfig :=
  { initArgs := [], circuitBreaker := cbCfgW, maxConcurrentCalls := 100,
    pluginTimeoutNs := 30000000000, options := [] }

/-- A manager configuration. -/
def configW : Config :=
  { pluginDir := "", allowHotReload := true, logLevel := LogLevel.Info,
    enableMetrics := true, defaultPluginConfig := pscW, pluginConfigs := [] }

/-- A breaker in `HalfOpen` one failure short of `maxFailures = 3`. -/
def cbHalfOpenW : CircuitBreaker :=
  { state := CircuitState.HalfOpen, failures := 2, lastFailureNs := 0,
    config := { enabled := true, maxFailures := 3, resetIntervalNs := 1000000000,
                timeoutDurationNs := 1000000000 } }

/-- An `Open` breaker whose last failure is at time 0. -/
def cbOpenW : CircuitBreaker :=
  { state := CircuitState.Open, failures := 5, lastFailureNs := 0, config := cbCfgW }

/-- A current instance at version `1.0.0`. -/
def oldPluginW : PluginCode :=
  { version := "1.0.0", initErr := none, freeErr := none, funcs := [] }

/-- The current `Active` instance wrapping `oldPluginW`. -/
def oldInstW : PluginInst :=
  { plugin := oldPluginW, state := PluginState.Active, version := "1.0.0" }

/-- A strictly newer module whose `Init` fails. -/
def newFailingPluginW : PluginCode :=
  { version := "2.0.0", initErr := some "init failed", freeErr := none, funcs := [] }

/-- A manager holding one plugin `p` with its breaker. -/
def mgrOneW : Manager :=
  { plugins := [("p", oldInstW)], pluginPaths := [("p", "dir/p.so")],
    breakers := [("p", newCircuitBreaker cbCfgW)],
    metrics := { enabled := true, plugins := [] }, config := configW }

/-- A current instance with the four-part version `1.0.0.0`. -/
def oldFourPartInstW : PluginInst :=
  { plugin := { version := "1.0.0.0", initErr := none, freeErr := none, funcs := [] },
    state := PluginState.Active, version := "1.0.0.0" }

/-- A manager holding the four-part-version instance. -/
def mgrFourPartW : Manager :=
  { plugins := [("p", oldFourPartInstW)], pluginPaths := [],
    breakers := [], metrics := { enabled := false, plugins := [] }, config := configW }

/-- A module with four-part version `1.0.0.1`, equal to the current
version on the first three parts. -/
def newFourPartPluginW : PluginCode :=
  { version := "1.0.0.1", initErr := none, freeErr := none, funcs := [] }

/-- A current instance at version `2.0.0`. -/
def curInstW : PluginInst :=
  { plugin := { version := "2.0.0", initErr := none, freeErr := none, funcs := [] },
    state := PluginState.Active, version := "2.0.0" }

/-- A manager currently at version `2.0.0` for plugin `p`. -/
def mgrCurW : Manager :=
  { plugins := [("p", curInstW)], pluginPaths := [("p", "dir/p.so")],
    breakers := [("p", newCircuitBreaker cbCfgW)],
    metrics := { enabled := true, plugins := [] }, config := configW }

/-- A module with the lower version `1.5.0`. -/
def lowerPluginW : PluginCode :=
  { version := "1.5.0", initErr := none, freeErr := none, funcs := [] }

/-- An instance whose `Free` succeeds. -/
def freeOkInstW : PluginInst :=
  { plugin := { version := "1.0.0", initErr := none, freeErr := none, funcs := [] },
    state := PluginState.Active, version := "1.0.0" }

/-- An instance whose `Free` fails. -/
def freeBadInstW : PluginInst :=
  { plugin := { version := "1.0.0", initErr := none, freeErr := some "free failed", funcs := [] },
    state := PluginState.Active, version := "1.0.0" }

/-- A manager with one cleanly-freeing and one failing instance. -/
def mgrCloseW : Manager :=
  { plugins := [("a", freeOkInstW), ("b", freeBadInstW)], pluginPaths := [],
    breakers := [], metrics := { enabled := false, plugins := [] }, config := configW }

/-- A function that succeeds with a fixed result. -/
def okFnW : FuncImpl := fun _ => Except.ok "test result"

/-- A function that fails with a fixed error. -/
def errFnW : FuncImpl := fun _ => Except.error "test error"

/-- A plugin exposing one succeeding and one failing function. -/
def richPluginW : PluginCode :=
  { version := "1.0.0", initErr := none, freeErr := none,
    funcs := [("TestFunc", okFnW), ("FailingFunc", errFnW)] }

/-- The `Active` instance wrapping `richPluginW`. -/
def richInstW : PluginInst :=
  { plugin := richPluginW, state := PluginState.Active, version := "1.0.0" }

/-- A manager with `richInstW`, a closed breaker and metrics enabled. -/
def mgrCallW : Manager :=
  { plugins := [("p", richInstW)], pluginPaths := [],
    breakers := [("p", newCircuitBreaker cbCfgW)],
    metrics := { enabled := true, plugins := [] }, config := configW }

/-- A default per-plugin configuration with every field non-zero. -/
def dfltCfgC8 : PluginSpecificConfig :=
  { initArgs := ["da"], circuitBreaker := cbCfgW, maxConcurrentCalls := 100,
    pluginTimeoutNs := 30000000000, options := [("k0", "v0"), ("k1", "v1")] }

/-- An override whose breaker config is non-zero but has `Enabled = false`. -/
def ovCfgC8 : PluginSpecificConfig :=
  { initArgs := [],
    circuitBreaker := { enabled := false, maxFailures := 7, resetIntervalNs := 1,
                        timeoutDurationNs := 1 },
    maxConcurrentCalls := 0, pluginTimeoutNs := 0,
    options := [("k1", "o1"), ("k2", "o2")] }

/-- The zero value of `CircuitBreakerConfig`. -/
def zeroCBCfg : CircuitBreakerConfig :=
  { enabled := false, maxFailures := 0, resetIntervalNs := 0, timeoutDurationNs := 0 }

/-- A configuration with the override registered for plugin `p`. -/
def cfgC8 : Config :=
  { pluginDir := "", allowHotReload := true, logLevel := LogLevel.Info,
    enableMetrics := true, defaultPluginConfig := dfltCfgC8,
    pluginConfigs := [("p", ovCfgC8)] }

/-- A manager with plugin `p` registered but no breaker entry for it. -/
def mgrNoBreakerW : Manager :=
  { plugins := [("p", oldInstW)], pluginPaths := [], breakers := [],
    metrics := { enabled := false, plugins := [] }, config := configW }

/-- A fresh breaker with `maxFailures = 2`. -/
def cb2W : CircuitBreaker :=
  newCircuitBreaker { enabled := true, maxFailures := 2, resetIntervalNs := 1000000000,
                      timeoutDurationNs := 1000000000 }

/-- An instance with an empty function table. -/
def plainInstW : PluginInst :=
  { plugin := { version := "1.0.0", initErr := none, freeErr := none, funcs := [] },
    state := PluginState.Active, version := "1.0.0" }

/-- A manager with `plainInstW` and the `maxFailures = 2` breaker. -/
def mgrTripW : Manager :=
  { plugins := [("p", plainInstW)], pluginPaths := [], breakers := [("p", cb2W)],
    metrics := { enabled := false, plugins := [] }, config := configW }

/-- The manager state `LoadPluginWithConfig` produces on a successful
upgrade: the old instance is first marked `Deprecated` in place, then the
new instance, its path and a fresh breaker are stored. -/
def installedOutcome (m : Manager) (pluginName path : String) (loaded : PluginCode)
    (cfg : PluginSpecificConfig) (old : PluginInst) : LoadOutcome :=
  { manager := { m with
      plugins := storeA (storeA m.plugins pluginName
          { old with state := PluginState.Deprecated }) pluginName
          { plugin := loaded, state := PluginState.Active, version := loaded.version },
      pluginPaths := storeA m.pluginPaths pluginName path,
      breakers := storeA m.breakers pluginName (newCircuitBreaker cfg.circuitBreaker) },
    err := none, freedNew := false }

/-! ## Helper lemmas -/

theorem lookupA_storeA_self {α : Type} (l : List (String × α)) (k : String) (v : α) :
    lookupA (storeA l k v) k = some v := by
  induction l with
  | nil => simp [storeA, lookupA]
  | cons kv rest ih =>
    obtain ⟨k0, w⟩ := kv
    by_cases hk : k0 = k
    · subst hk; simp [storeA, lookupA]
    · simp [storeA, hk, lookupA, ih]

theorem lookupA_storeA_ne {α : Type} (l : List (String × α)) (k k' : String) (v : α)
    (h : k ≠ k') : lookupA (storeA l k v) k' = lookupA l k' := by
  induction l with
  | nil => simp [storeA, lookupA, h]
  | cons kv rest ih =>
    obtain ⟨k0, w⟩ := kv
    by_cases hk : k0 = k
    · subst hk; simp [storeA, lookupA, h]
    · simp [storeA, hk, lookupA, ih]

theorem lookupA_updA_self {α : Type} (l : List (String × α)) (k : String) (d : α)
    (f : α → α) : lookupA (updA l k d f) k = some (f ((lookupA l k).getD d)) := by
  induction l with
  | nil => simp [updA, lookupA]
  | cons kv rest ih =>
    obtain ⟨k0, w⟩ := kv
    by_cases hk : k0 = k
    · subst hk; simp [updA, lookupA]
    · simp [updA, hk, lookupA, ih]

theorem lookupA_updA_ne {α : Type} (l : List (String × α)) (k k' : String) (d : α)
    (f : α → α) (h : k ≠ k') : lookupA (updA l k d f) k' = lookupA l k' := by
  induction l with
  | nil => simp [updA, lookupA, h]
  | cons kv rest ih =>
    obtain ⟨k0, w⟩ := kv
    by_cases hk : k0 = k
    · subst hk; simp [updA, lookupA, h]
    · simp [updA, hk, lookupA, ih]

theorem mem_removeA {α : Type} (l : List (String × α)) (k : String) (kv : String × α)
    (h : kv ∈ removeA l k) : kv ∈ l ∧ kv.1 ≠ k := by
  induction l with
  | nil => simp [removeA] at h
  | cons hd rest ih =>
    obtain ⟨k0, w⟩ := hd
    by_cases hk : k0 = k
    · simp [removeA, hk] at h
      rcases ih h with ⟨h1, h2⟩
      exact ⟨List.mem_cons_of_mem _ h1, h2⟩
    · simp [removeA, hk] at h
      rcases h with h | h
      · subst h; exact ⟨List.mem_cons_self _ _, hk⟩
      · rcases ih h with ⟨h1, h2⟩
        exact ⟨List.mem_cons_of_mem _ h1, h2⟩

theorem foldl_removeA_eq_nil {α : Type} :
    ∀ (todo reg : List (String × α)),
      (∀ kv ∈ reg, ∃ kv' ∈ todo, kv'.1 = kv.1) →
      todo.foldl (fun r kv => removeA r kv.1) reg = [] := by
  intro todo
  induction todo with
  | nil =>
    intro reg h
    cases reg with
    | nil => rfl
    | cons a t =>
      rcases h a (List.mem_cons_self _ _) with ⟨kv', hkv', _⟩
      simp at hkv'
  | cons kv rest ih =>
    intro reg h
    simp only [List.foldl_cons]
    apply ih
    intro x hx
    rcases mem_removeA _ _ _ hx with ⟨hxreg, hxne⟩
    rcases h x hxreg with ⟨kv', hkv', heq⟩
    rcases List.mem_cons.mp hkv' with h1 | h1
    · subst h1; exact absurd heq hxne.symm
    · exact ⟨kv', h1, heq⟩

theorem lookupA_eq_none_of_forall_ne {α : Type} (l : List (String × α)) (k : String)
    (h : ∀ kv ∈ l, kv.1 ≠ k) : lookupA l k = none := by
  induction l with
  | nil => rfl
  | cons kv rest ih =>
    obtain ⟨k0, w⟩ := kv
    have hk : k0 ≠ k := h (k0, w) (List.mem_cons_self _ _)
    simp [lookupA, hk]
    exact ih (fun kv' hkv' => h kv' (List.mem_cons_of_mem _ hkv'))

theorem lookupA_foldl_storeA {α : Type} :
    ∀ (l : List (String × α)), (l.map Prod.fst).Nodup →
      ∀ (init : List (String × α)) (k : String),
        lookupA (l.foldl (fun acc kv => storeA acc kv.1 kv.2) init) k =
          (lookupA l k).orElse (fun _ => lookupA init k) := by
  intro l
  induction l with
  | nil => intro _ init k; simp [lookupA, Option.orElse]
  | cons kv rest ih =>
    intro hnd init k
    obtain ⟨k0, v0⟩ := kv
    simp only [List.map_cons, List.nodup_cons] at hnd
    obtain ⟨hk0, hndr⟩ := hnd
    simp only [List.foldl_cons]
    rw [ih hndr]
    by_cases hk : k0 = k
    · subst hk
      have hrest : lookupA rest k0 = none := by
        apply lookupA_eq_none_of_forall_ne
        intro kv' hkv' hcontra
        exact hk0 (hcontra ▸ List.mem_map_of_mem Prod.fst hkv')
      simp [lookupA, hrest, Option.orElse, lookupA_storeA_self]
    · cases htk : lookupA rest k with
      | none => simp [lookupA, hk, htk, Option.orElse, lookupA_storeA_ne _ _ _ _ hk]
      | some v => simp [lookupA, hk, htk, Option.orElse]

theorem int32cast_of_bounds (x : Int) (h1 : -(2 ^ 31) ≤ x) (h2 : x < 2 ^ 31) :
    int32cast x = x := by
  unfold int32cast
  have e32 : (2 : Int) ^ 32 = 4294967296 := by norm_num
  have e31 : (2 : Int) ^ 31 = 2147483648 := by norm_num
  rw [e32, e31]
  rw [e31] at h1
  rw [e31] at h2
  omega

theorem getMM_recordMetric_self (pm : PluginMetrics) (p f : String) (d : Int)
    (h : pm.enabled = true) :
    (pm.recordMetric p f d).getMM p f = (pm.getMM p f).record d := by
  cases hp : lookupA pm.plugins p with
  | none =>
    simp [PluginMetrics.recordMetric, h, PluginMetrics.getMM, hp, lookupA_updA_self, lookupA]
  | some ms =>
    simp [PluginMetrics.recordMetric, h, PluginMetrics.getMM, hp, lookupA_updA_self]

theorem getMM_recordMetric_other (pm : PluginMetrics) (p f p' f' : String) (d : Int)
    (h : ¬(p' = p ∧ f' = f)) :
    (pm.recordMetric p f d).getMM p' f' = pm.getMM p' f' := by
  cases hen : pm.enabled with
  | false => simp [PluginMetrics.recordMetric, hen]
  | true =>
    by_cases hpp : p' = p
    · subst hpp
      have hff : f ≠ f' := fun hc => h ⟨rfl, hc.symm⟩
      cases hp : lookupA pm.plugins p' with
      | none =>
        simp [PluginMetrics.recordMetric, hen, PluginMetrics.getMM, hp,
              lookupA_updA_self, lookupA_updA_ne _ _ _ _ _ hff, lookupA, hff]
      | some ms =>
        simp [PluginMetrics.recordMetric, hen, PluginMetrics.getMM, hp,
              lookupA_updA_self, lookupA_updA_ne _ _ _ _ _ hff]
    · have hpp' : p ≠ p' := fun hc => hpp hc.symm
      simp [PluginMetrics.recordMetric, hen, PluginMetrics.getMM,
            lookupA_updA_ne _ _ _ _ _ hpp']

theorem closeLoop_eq :
    ∀ (todo reg : List (String × PluginInst)) (freed : List String)
      (errs : List (String × String)),
      closeLoop todo reg freed errs =
        (todo.foldl (fun r kv => removeA r kv.1) reg,
         freed ++ todo.map Prod.fst,
         errs ++ todo.filterMap (fun kv => (kv.2.plugin.freeErr).map (fun e => (kv.1, e)))) := by
  intro todo
  induction todo with
  | nil => intro reg freed errs; simp [closeLoop]
  | cons kv rest ih =>
    intro reg freed errs
    obtain ⟨name, inst⟩ := kv
    cases hfe : inst.plugin.freeErr with
    | none => simp [closeLoop, hfe, ih, List.filterMap_cons, List.append_assoc]
    | some e => simp [closeLoop, hfe, ih, List.filterMap_cons, List.append_assoc]

theorem validate_mcc_nonneg (c : PluginSpecificConfig)
    (h : validatePluginSpecificConfig c = none) : 0 ≤ c.maxConcurrentCalls := by
  by_contra hc
  push_neg at hc
  simp [validatePluginSpecificConfig, hc] at h

theorem validate_pt_nonneg (c : PluginSpecificConfig)
    (h : validatePluginSpecificConfig c = none) : 0 ≤ c.pluginTimeoutNs := by
  by_contra hc
  push_neg at hc
  rcases lt_or_ge c.maxConcurrentCalls 0 with hm | hm
  · simp [validatePluginSpecificConfig, hm] at h
  · simp [validatePluginSpecificConfig, not_lt.mpr hm, hc] at h

theorem mergeConfig_initArgs (d s : PluginSpecificConfig) :
    (mergeConfig d s).initArgs =
      if s.initArgs.length > 0 then s.initArgs else d.initArgs := by
  simp only [mergeConfig]
  split_ifs <;> rfl

theorem mergeConfig_circuitBreaker (d s : PluginSpecificConfig) :
    (mergeConfig d s).circuitBreaker =
      if s.circuitBreaker.enabled then s.circuitBreaker else d.circuitBreaker := by
  simp only [mergeConfig]
  split_ifs <;> rfl

theorem mergeConfig_mcc (d s : PluginSpecificConfig) :
    (mergeConfig d s).maxConcurrentCalls =
      if s.maxConcurrentCalls > 0 then s.maxConcurrentCalls else d.maxConcurrentCalls := by
  simp only [mergeConfig]
  split_ifs <;> rfl

theorem mergeConfig_pt (d s : PluginSpecificConfig) :
    (mergeConfig d s).pluginTimeoutNs =
      if s.pluginTimeoutNs > 0 then s.pluginTimeoutNs else d.pluginTimeoutNs := by
  simp only [mergeConfig]
  split_ifs <;> rfl

theorem mergeConfig_options (d s : PluginSpecificConfig) :
    (mergeConfig d s).options =
      s.options.foldl (fun o kv => storeA o kv.1 kv.2) d.options := by
  simp only [mergeConfig]
  split_ifs <;> rfl

theorem padTo3_length (l : List String) (h : l.length ≤ 3) : (padTo3 l).length = 3 := by
  simp [padTo3]
  omega

theorem padTo3_take (l : List String) (h : l.length ≤ 3) : (padTo3 l).take 3 = padTo3 l := by
  apply List.take_of_length_le
  simp [padTo3]
  omega

theorem cmpParts_agree :
    ∀ (l1 l2 : List String), l1.length = l2.length →
      (∀ p ∈ l1, goAtoi p = specPartNum p) →
      (∀ p ∈ l2, goAtoi p = specPartNum p) →
      cmpParts l1 l2 = some (lex3 (l1.map specPartNum) (l2.map specPartNum)) := by
  intro l1
  induction l1 with
  | nil =>
    intro l2 h _ _
    cases l2 with
    | nil => simp [cmpParts, lex3]
    | cons b bs => simp at h
  | cons a as ih =>
    intro l2 h h1 h2
    cases l2 with
    | nil => simp at h
    | cons b bs =>
      have ha := h1 a (List.mem_cons_self _ _)
      have hb := h2 b (List.mem_cons_self _ _)
      have hlen : as.length = bs.length := by simpa using h
      simp only [cmpParts, List.map_cons, lex3, ha, hb]
      split_ifs with hgt hlt
      · rfl
      · rfl
      · exact ih bs hlen (fun p hp => h1 p (List.mem_cons_of_mem _ hp))
          (fun p hp => h2 p (List.mem_cons_of_mem _ hp))

theorem call_unknownFunc (m : Manager) (p f : String) (args : List String)
    (now dur : Int) (inst : PluginInst) (b : CircuitBreaker)
    (hp : lookupA m.plugins p = some inst)
    (hf : lookupA inst.plugin.funcs f = none)
    (hb : lookupA m.breakers p = some b)
    (hs : b.state = CircuitState.Closed) :
    m.call p f args now dur =
      some (Except.error (CallErr.funcNotFound f),
        { m with breakers := storeA m.breakers p (b.recordFailure now) }) := by
  simp [Manager.call, hp, hb, CircuitBreaker.allow, hs, PluginCode.call, hf]

theorem callN_drive (p f : String) (args : List String) (now dur : Int) (n : Nat)
    (hnb : (n : Int) < 2 ^ 31) :
    ∀ (k : Nat) (m : Manager) (inst : PluginInst) (b : CircuitBreaker),
      0 < k → ((k : Int) + b.failures = (n : Int)) → 0 ≤ b.failures →
      lookupA m.plugins p = some inst →
      lookupA inst.plugin.funcs f = none →
      lookupA m.breakers p = some b →
      b.state = CircuitState.Closed →
      b.config.maxFailures = (n : Int) →
      ∃ m', callN p f args now dur k m = some m' ∧
        m'.plugins = m.plugins ∧
        ∃ b', lookupA m'.breakers p = some b' ∧ b'.state = CircuitState.Open := by
  intro k
  induction k with
  | zero =>
    intro m inst b hk
    exact absurd hk (lt_irrefl 0)
  | succ k ih =>
    intro m inst b _ hsum hnn hp hf hb hs hmax
    have hcall := call_unknownFunc m p f args now dur inst b hp hf hb hs
    have hk1 : b.failures + 1 ≤ (n : Int) := by
      have : (0 : Int) ≤ (k : Int) := Int.ofNat_nonneg k
      push_cast at hsum
      omega
    have e1 : int32cast (b.failures + 1) = b.failures + 1 := by
      apply int32cast_of_bounds <;> omega
    have e2 : int32cast b.config.maxFailures = (n : Int) := by
      rw [hmax]
      apply int32cast_of_bounds
      · have : (0 : Int) ≤ (n : Int) := Int.ofNat_nonneg n
        omega
      · exact hnb
    have e3 : int32cast ((n : Nat) : Int) = ((n : Nat) : Int) := by
      apply int32cast_of_bounds
      · have : (0 : Int) ≤ (n : Int) := Int.ofNat_nonneg n
        omega
      · exact hnb
    by_cases hk0 : k = 0
    · subst hk0
      have hfn : b.failures + 1 = (n : Int) := by push_cast at hsum; omega
      have hstate : (b.recordFailure now).state = CircuitState.Open := by
        simp [CircuitBreaker.recordFailure, e1, e2, e3, hfn, hs]
      refine ⟨{ m with breakers := storeA m.breakers p (b.recordFailure now) },
        ?_, rfl, b.recordFailure now, lookupA_storeA_self _ _ _, hstate⟩
      simp [callN, hcall]
    · have hklt : b.failures + 1 < (n : Int) := by
        have hkge : (1 : Int) ≤ (k : Int) := by
          exact_mod_cast Nat.one_le_iff_ne_zero.mpr hk0
        push_cast at hsum
        omega
      have hstate1 : (b.recordFailure now).state = CircuitState.Closed := by
        simp [CircuitBreaker.recordFailure, e1, e2, hs]
        omega
      have hfail1 : (b.recordFailure now).failures = b.failures + 1 := by
        simp [CircuitBreaker.recordFailure, e1]
      have hcfg1 : (b.recordFailure now).config = b.config := rfl
      obtain ⟨m', h1, h2, b', h3, h4⟩ :=
        ih { m with breakers := storeA m.breakers p (b.recordFailure now) }
          inst (b.recordFailure now) (Nat.pos_of_ne_zero hk0)
          (by rw [hfail1]; push_cast at hsum ⊢; omega)
          (by rw [hfail1]; omega)
          hp hf (lookupA_storeA_self _ _ _) hstate1 (by rw [hcfg1]; exact hmax)
      refine ⟨m', ?_, by simpa using h2, b', h3, h4⟩
      simp [callN, hcall, h1]

/-! ## Claim theorems -/

/-- Claim C1 (refuted by the code, supporting the code-bug verdict): with
`maxFailures = 3`, a `RecordFailure` that brings the counter from 2 to 3
while the breaker is `HalfOpen` leaves the state `HalfOpen`, not `Open` —
the CAS in `RecordFailure` only fires from `Closed`, so the required
`HalfOpen → Open` transition never happens. -/
theorem c1_recordFailure_halfOpen_stays_halfOpen :
    (cbHalfOpenW.recordFailure 7).failures = cbHalfOpenW.config.maxFailures ∧
    (cbHalfOpenW.recordFailure 7).state = CircuitState.HalfOpen ∧
    (cbHalfOpenW.recordFailure 7).state ≠ CircuitState.Open := by
  refine ⟨?_, ?_, ?_⟩ <;> decide

/-- Claim C3: `Allow` returns `true` from `Closed` and `HalfOpen` without
side effects; from `Open` it returns `true` iff the elapsed time since the
last failure exceeds `timeoutDuration`, transitioning to `HalfOpen` with
the counter reset exactly in that case, else `false`; a nil breaker always
allows. -/
theorem c3_allow_semantics (cb : CircuitBreaker) (nowNs : Int) :
    (cb.state = CircuitState.Closed → cb.allow nowNs = (true, cb)) ∧
    (cb.state = CircuitState.HalfOpen → cb.allow nowNs = (true, cb)) ∧
    (cb.state = CircuitState.Open →
      ((cb.allow nowNs).1 = true ↔ nowNs - cb.lastFailureNs > cb.config.timeoutDurationNs) ∧
      (nowNs - cb.lastFailureNs > cb.config.timeoutDurationNs →
        cb.allow nowNs = (true, { cb with state := CircuitState.HalfOpen, failures := 0 })) ∧
      (¬ nowNs - cb.lastFailureNs > cb.config.timeoutDurationNs →
        cb.allow nowNs = (false, cb))) ∧
    allowOpt none nowNs = (true, none) := by
  refine ⟨fun h => by simp [CircuitBreaker.allow, h],
          fun h => by simp [CircuitBreaker.allow, h],
          fun h => ?_, rfl⟩
  refine ⟨?_, fun ht => by simp [CircuitBreaker.allow, h, ht],
          fun ht => by simp [CircuitBreaker.allow, h, ht]⟩
  by_cases ht : nowNs - cb.lastFailureNs > cb.config.timeoutDurationNs
  · simp [CircuitBreaker.allow, h, ht]
  · simp [CircuitBreaker.allow, h, ht]

/-- Witness for C3: an `Open` breaker (timeout 1s, last failure at 0)
probed at 2s allows and transitions to `HalfOpen` with the counter reset,
and a nil breaker allows. -/
theorem c3_allow_semantics_witness :
    cbOpenW.allow 2000000000 =
      (true, { cbOpenW with state := CircuitState.HalfOpen, failures := 0 }) ∧
    allowOpt none 2000000000 = (true, none) :=
  ⟨((c3_allow_semantics cbOpenW 2000000000).2.2.1 rfl).2.1 (by decide),
   (c3_allow_semantics cbOpenW 2000000000).2.2.2⟩

/-- Claim C6: recording 10ms, 1ms and 50ms for one function on an enabled
collector yields count 3, min 1ms, max 50ms, total 61ms; the first sample
replaces the zero "unset" sentinel of min. -/
theorem c6_metrics_accuracy :
    ((((PluginMetrics.recordMetric { enabled := true, plugins := [] }
        "p" "TestFunc" 10000000).recordMetric "p" "TestFunc" 1000000).recordMetric
        "p" "TestFunc" 50000000).getMM "p" "TestFunc" =
      { count := 3, totalTime := 61000000, minTime := 1000000, maxTime := 50000000 }) ∧
    ((PluginMetrics.recordMetric { enabled := true, plugins := [] }
        "p" "TestFunc" 10000000).getMM "p" "TestFunc" =
      { count := 1, totalTime := 10000000, minTime := 10000000, maxTime := 10000000 }) := by
  refine ⟨?_, ?_⟩ <;> decide

/-- Claim C5: `Close` invokes `Free` on every registered instance without
halting on errors, collects every teardown error, returns the combined
error exactly when some teardown failed (nil otherwise), and leaves the
plugin registry empty. -/
theorem c5_close_frees_all_and_empties (m : Manager) :
    m.close.manager.plugins = [] ∧
    m.close.freed = m.plugins.map Prod.fst ∧
    m.close.freeErrs =
      m.plugins.filterMap (fun kv => (kv.2.plugin.freeErr).map (fun e => (kv.1, e))) ∧
    (m.close.combinedErr = none ↔ ∀ kv ∈ m.plugins, kv.2.plugin.freeErr = none) := by
  have hcl := closeLoop_eq m.plugins m.plugins [] []
  have hnil : m.plugins.foldl (fun r kv => removeA r kv.1) m.plugins = [] :=
    foldl_removeA_eq_nil m.plugins m.plugins (fun kv hkv => ⟨kv, hkv, rfl⟩)
  refine ⟨by simp [Manager.close, hcl, hnil], by simp [Manager.close, hcl],
          by simp [Manager.close, hcl], ?_⟩
  have h22 : (closeLoop m.plugins m.plugins [] []).2.2 =
      m.plugins.filterMap (fun kv => (kv.2.plugin.freeErr).map (fun e => (kv.1, e))) := by
    rw [hcl]
    simp
  have hco : m.close.combinedErr =
      (if (m.plugins.filterMap
            (fun kv => (kv.2.plugin.freeErr).map (fun e => (kv.1, e)))).isEmpty then none
       else some (m.plugins.filterMap
            (fun kv => (kv.2.plugin.freeErr).map (fun e => (kv.1, e))))) := by
    dsimp only [Manager.close]
    rw [h22]
  rw [hco]
  by_cases hemp : (m.plugins.filterMap
      (fun kv => (kv.2.plugin.freeErr).map (fun e => (kv.1, e)))).isEmpty
  · rw [if_pos hemp]
    constructor
    · intro _ kv hkv
      have hx := (List.filterMap_eq_nil_iff.mp (List.isEmpty_iff.mp hemp)) kv hkv
      exact Option.map_eq_none'.mp hx
    · intro _; rfl
  · rw [if_neg hemp]
    constructor
    · intro hcontra; cases hcontra
    · intro hall
      exfalso
      apply hemp
      rw [List.isEmpty_iff, List.filterMap_eq_nil_iff]
      intro kv hkv
      rw [Option.map_eq_none']
      exact hall kv hkv

/-- Witness for C5: closing a manager holding one cleanly-freeing and one
failing instance frees both in order, collects exactly the failing error,
reports a combined error, and empties the registry. -/
theorem c5_close_witness :
    mgrCloseW.close.manager.plugins = [] ∧
    mgrCloseW.close.freed = mgrCloseW.plugins.map Prod.fst ∧
    mgrCloseW.close.freeErrs =
      mgrCloseW.plugins.filterMap (fun kv => (kv.2.plugin.freeErr).map (fun e => (kv.1, e))) ∧
    (mgrCloseW.close.combinedErr = none ↔
      ∀ kv ∈ mgrCloseW.plugins, kv.2.plugin.freeErr = none) :=
  c5_close_frees_all_and_empties mgrCloseW

/-- Claim C7: a `Call` whose function errors returns that error, records a
failure on the breaker and leaves metrics untouched; a successful `Call`
records a success on the breaker and, with metrics enabled, records
exactly one timing sample for that plugin/function pair. -/
theorem c7_call_outcome_effects (m : Manager) (p f : String) (args : List String)
    (now dur : Int) (inst : PluginInst) (b : CircuitBreaker)
    (hp : lookupA m.plugins p = some inst)
    (hb : lookupA m.breakers p = some b)
    (hallow : (b.allow now).1 = true) :
    (∀ e, inst.plugin.call f args = Except.error e →
      ∃ m', m.call p f args now dur = some (Except.error e, m') ∧
        m'.metrics = m.metrics ∧
        m'.plugins = m.plugins ∧
        m'.breakers = storeA m.breakers p ((b.allow now).2.recordFailure now)) ∧
    (∀ v, inst.plugin.call f args = Except.ok v →
      ∃ m', m.call p f args now dur = some (Except.ok v, m') ∧
        m'.plugins = m.plugins ∧
        m'.breakers = storeA m.breakers p (b.allow now).2.recordSuccess ∧
        (m.metrics.enabled = true →
          m'.metrics.getMM p f = (m.metrics.getMM p f).record dur ∧
          ∀ p' f', ¬(p' = p ∧ f' = f) →
            m'.metrics.getMM p' f' = m.metrics.getMM p' f') ∧
        (m.metrics.enabled = false → m'.metrics = m.metrics)) := by
  constructor
  · intro e he
    refine ⟨{ m with breakers := storeA m.breakers p ((b.allow now).2.recordFailure now) },
      ?_, rfl, rfl, rfl⟩
    simp [Manager.call, hp, hb, hallow, he]
  · intro v hv
    cases hen : m.metrics.enabled with
    | true =>
      refine ⟨{ { m with breakers := storeA m.breakers p (b.allow now).2.recordSuccess } with
                metrics := m.metrics.recordMetric p f dur }, ?_, rfl, rfl, ?_, ?_⟩
      · simp [Manager.call, hp, hb, hallow, hv, hen]
      · intro _
        exact ⟨getMM_recordMetric_self _ _ _ _ hen,
               fun p' f' hne => getMM_recordMetric_other _ _ _ _ _ _ hne⟩
      · intro hfalse; simp [hen] at hfalse
    | false =>
      refine ⟨{ m with breakers := storeA m.breakers p (b.allow now).2.recordSuccess },
        ?_, rfl, rfl, ?_, fun _ => rfl⟩
      · simp [Manager.call, hp, hb, hallow, hv, hen]
      · intro htrue; simp [hen] at htrue

/-- Witness for C7: on `mgrCallW`, calling `TestFunc` succeeds with the
breaker's success recorded and exactly that pair's sample recorded. -/
theorem c7_call_outcome_effects_witness :
    ∃ m', mgrCallW.call "p" "TestFunc" [] 0 7 = some (Except.ok "test result", m') ∧
      m'.plugins = mgrCallW.plugins ∧
      m'.breakers =
        storeA mgrCallW.breakers "p" ((newCircuitBreaker cbCfgW).allow 0).2.recordSuccess ∧
      m'.metrics.getMM "p" "TestFunc" = (mgrCallW.metrics.getMM "p" "TestFunc").record 7 := by
  have h := c7_call_outcome_effects mgrCallW "p" "TestFunc" [] 0 7 richInstW
    (newCircuitBreaker cbCfgW) rfl rfl rfl
  obtain ⟨m', h1, h2, h3, h4, _⟩ := h.2 "test result" rfl
  exact ⟨m', h1, h2, h3, (h4 rfl).1⟩

/-- Claim C9: with no breaker entry for a name, `IsCircuitBreakerOpen` and
`GetBreakerStatus` panic on the nil-interface type assertion instead of
returning a boolean, and `Call` panics when the plugin is registered but
the breaker entry is absent. -/
theorem c9_missing_breaker_panics (m : Manager) (p : String) (nowNs : Int)
    (h : lookupA m.breakers p = none) :
    m.isCircuitBreakerOpen p nowNs = none ∧
    m.getBreakerStatus p nowNs = none ∧
    (∀ inst, lookupA m.plugins p = some inst →
      ∀ (f : String) (args : List String) (durNs : Int),
        m.call p f args nowNs durNs = none) := by
  refine ⟨by simp [Manager.isCircuitBreakerOpen, h],
          by simp [Manager.getBreakerStatus, h], ?_⟩
  intro inst hinst f args dur
  simp [Manager.call, hinst, h]

/-- Witness for C9: a manager with plugin `p` registered but no breaker
entry panics in all three operations. -/
theorem c9_missing_breaker_panics_witness :
    mgrNoBreakerW.isCircuitBreakerOpen "p" 0 = none ∧
    mgrNoBreakerW.getBreakerStatus "p" 0 = none ∧
    mgrNoBreakerW.call "p" "TestFunc" [] 0 0 = none := by
  have h := c9_missing_breaker_panics mgrNoBreakerW "p" 0 rfl
  exact ⟨h.1, h.2.1, h.2.2 oldInstW rfl "TestFunc" [] 0⟩

/-- Claim C10: calling a registered plugin with an unknown function name
while the (closed) breaker allows returns a function-not-found error and
records it as a failure; `maxFailures = n` consecutive such calls drive
the breaker to `Open`. -/
theorem c10_unknown_func_trips_breaker (m : Manager) (p f : String) (args : List String)
    (now dur : Int) (inst : PluginInst) (b : CircuitBreaker) (n : Nat)
    (hp : lookupA m.plugins p = some inst)
    (hf : lookupA inst.plugin.funcs f = none)
    (hb : lookupA m.breakers p = some b)
    (hs : b.state = CircuitState.Closed)
    (hj : b.failures = 0)
    (hmax : b.config.maxFailures = (n : Int))
    (hnpos : 0 < n)
    (hnb : (n : Int) < 2 ^ 31) :
    (m.call p f args now dur =
       some (Except.error (CallErr.funcNotFound f),
         { m with breakers := storeA m.breakers p (b.recordFailure now) }) ∧
     (b.recordFailure now).failures = b.failures + 1) ∧
    ∃ m', callN p f args now dur n m = some m' ∧
      ∃ b', lookupA m'.breakers p = some b' ∧ b'.state = CircuitState.Open := by
  have hfail : (b.recordFailure now).failures = b.failures + 1 := by
    simp only [CircuitBreaker.recordFailure]
    apply int32cast_of_bounds <;> omega
  obtain ⟨m', h1, _, b', h3, h4⟩ :=
    callN_drive p f args now dur n hnb n m inst b hnpos
      (by rw [hj, add_zero]) (by rw [hj]) hp hf hb hs hmax
  exact ⟨⟨call_unknownFunc m p f args now dur inst b hp hf hb hs, hfail⟩,
         m', h1, b', h3, h4⟩

/-- Witness for C10: on `mgrTripW` (breaker `maxFailures = 2`), one call
with unknown function `g` errors and increments the counter, and two such
calls leave the breaker `Open`. -/
theorem c10_unknown_func_trips_breaker_witness :
    (mgrTripW.call "p" "g" [] 5 1 =
       some (Except.error (CallErr.funcNotFound "g"),
         { mgrTripW with breakers := storeA mgrTripW.breakers "p" (cb2W.recordFailure 5) }) ∧
     (cb2W.recordFailure 5).failures = cb2W.failures + 1) ∧
    ∃ m', callN "p" "g" [] 5 1 2 mgrTripW = some m' ∧
      ∃ b', lookupA m'.breakers "p" = some b' ∧ b'.state = CircuitState.Open :=
  c10_unknown_func_trips_breaker mgrTripW "p" "g" [] 5 1 plainInstW cb2W 2
    rfl rfl rfl rfl rfl (by decide) (by decide) (by decide)

/-- Counterexample to claim C2 as stated: loading a strictly newer module
whose `Init` fails does tear the new module down, never registers it, and
leaves the prior instance current — but that prior instance's state is
`Deprecated`, not `Active`, because `LoadPluginWithConfig` marks it
deprecated before running `Init` and never rolls that back. -/
theorem c2_init_failure_deprecates_prior_cex :
    mgrOneW.loadPluginWithConfig "dir/p.so" newFailingPluginW none =
      some { manager := { mgrOneW with
               plugins := [("p", { oldInstW with state := PluginState.Deprecated })] },
             err := some (LoadErr.initFailure "init failed"), freedNew := true } ∧
    ({ oldInstW with state := PluginState.Deprecated }).state ≠ PluginState.Active :=
  ⟨rfl, by decide⟩

/-- Claim C2 (amended): when a strictly newer module's `Init` fails, the
new module's `Free` is invoked, it is never registered, the error is
returned, and the prior instance remains the current instance for the
name — but with its state already set to `Deprecated` (the marking happens
before `Init` runs and is not restored). -/
theorem c2_init_failure_recovery_amended (m : Manager) (path : String) (loaded : PluginCode)
    (cfg : Option PluginSpecificConfig) (old : PluginInst) (e : String)
    (hold : lookupA m.plugins (getPluginNameFromPath path) = some old)
    (hhigher : isHigherVersion loaded.version old.version = some true)
    (hinit : loaded.initErr = some e) :
    m.loadPluginWithConfig path loaded cfg =
      some { manager := { m with plugins := (storeA m.plugins (getPluginNameFromPath path)
                 { old with state := PluginState.Deprecated }) },
             err := some (LoadErr.initFailure e), freedNew := true } ∧
    lookupA (storeA m.plugins (getPluginNameFromPath path)
        { old with state := PluginState.Deprecated }) (getPluginNameFromPath path) =
      some { old with state := PluginState.Deprecated } := by
  refine ⟨?_, lookupA_storeA_self _ _ _⟩
  simp [Manager.loadPluginWithConfig, hold, hhigher, finishLoad, hinit]

/-- Witness for the amended C2 at a concrete manager and module. -/
theorem c2_init_failure_recovery_amended_witness :
    mgrOneW.loadPluginWithConfig "dir/p.so" newFailingPluginW none =
      some { manager := { mgrOneW with plugins := (storeA mgrOneW.plugins "p"
                 { oldInstW with state := PluginState.Deprecated }) },
             err := some (LoadErr.initFailure "init failed"), freedNew := true } ∧
    lookupA (storeA mgrOneW.plugins "p" { oldInstW with state := PluginState.Deprecated }) "p" =
      some { oldInstW with state := PluginState.Deprecated } :=
  c2_init_failure_recovery_amended mgrOneW "dir/p.so" newFailingPluginW none
    oldInstW "init failed" rfl (by decide) rfl

/-- Counterexample to claim C4 as stated: with current version `1.0.0.0`,
loading version `1.0.0.1` — not strictly greater under three-part
comparison — nevertheless installs the new module as current (and with
current `1.0.0`, the same load panics on an out-of-range index instead of
discarding the module). -/
theorem c4_version_gate_cex :
    specThreePartHigher "1.0.0.1" "1.0.0.0" = false ∧
    isHigherVersion "1.0.0.1" "1.0.0.0" = some true ∧
    mgrFourPartW.loadPluginWithConfig "dir/p.so" newFourPartPluginW none =
      some { manager := { mgrFourPartW with
               plugins := [("p", { plugin := newFourPartPluginW, state := PluginState.Active,
                                   version := "1.0.0.1" })],
               pluginPaths := [("p", "dir/p.so")],
               breakers := [("p", newCircuitBreaker cbCfgW)] },
             err := none, freedNew := false } ∧
    isHigherVersion "1.0.0.1" "1.0.0" = none :=
  ⟨by decide, by decide, rfl, by decide⟩

/-- Claim C4 (amended): the gate compares part-wise over all parts of the
new version (padding both to at least three; out-of-range access panics
when the new version has more parts); for versions of at most three
dot-separated parts whose parts evaluate alike under Go `Atoi` and the
spec's "non-numeric is zero" rule, the gate coincides with the spec's
three-part comparison: not-higher loads free the new module, leave the
registry untouched and return nil, while higher loads with successful
`Init` install the new module as the `Active` current instance. -/
theorem c4_version_gate_amended (m : Manager) (path : String) (loaded : PluginCode)
    (cfg : Option PluginSpecificConfig) (old : PluginInst)
    (hold : lookupA m.plugins (getPluginNameFromPath path) = some old)
    (hl1 : (goSplitDot (goTrimLeadV loaded.version)).length ≤ 3)
    (hl2 : (goSplitDot (goTrimLeadV old.version)).length ≤ 3)
    (hagree : ∀ q ∈ padTo3 (goSplitDot (goTrimLeadV loaded.version)) ++
        padTo3 (goSplitDot (goTrimLeadV old.version)), goAtoi q = specPartNum q) :
    isHigherVersion loaded.version old.version =
      some (specThreePartHigher loaded.version old.version) ∧
    (specThreePartHigher loaded.version old.version = false →
      m.loadPluginWithConfig path loaded cfg =
        some { manager := m, err := none, freedNew := true }) ∧
    (specThreePartHigher loaded.version old.version = true → loaded.initErr = none →
      ∃ out, m.loadPluginWithConfig path loaded cfg = some out ∧
        out.freedNew = false ∧ out.err = none ∧
        lookupA out.manager.plugins (getPluginNameFromPath path) =
          some { plugin := loaded, state := PluginState.Active, version := loaded.version }) := by
  have hiv : isHigherVersion loaded.version old.version =
      some (specThreePartHigher loaded.version old.version) := by
    unfold isHigherVersion specThreePartHigher
    rw [padTo3_take _ hl1, padTo3_take _ hl2]
    apply cmpParts_agree
    · rw [padTo3_length _ hl1, padTo3_length _ hl2]
    · intro q hq; exact hagree q (List.mem_append_left _ hq)
    · intro q hq; exact hagree q (List.mem_append_right _ hq)
  refine ⟨hiv, ?_, ?_⟩
  · intro hfalse
    have hv : isHigherVersion loaded.version old.version = some false := by rw [hiv, hfalse]
    simp [Manager.loadPluginWithConfig, hold, hv]
  · intro htrue hinit
    have hv : isHigherVersion loaded.version old.version = some true := by rw [hiv, htrue]
    refine ⟨installedOutcome m (getPluginNameFromPath path) path loaded
        (cfg.getD m.config.defaultPluginConfig) old, ?_, rfl, rfl, ?_⟩
    · simp [Manager.loadPluginWithConfig, hold, hv, finishLoad, hinit, installedOutcome]
    · simp only [installedOutcome]
      exact lookupA_storeA_self _ _ _

/-- Witness for the amended C4: loading `1.5.0` over current `2.0.0` is
not higher under the three-part comparison; the manager is untouched, the
new module is freed, and nil is returned. -/
theorem c4_version_gate_amended_witness :
    isHigherVersion "1.5.0" "2.0.0" = some (specThreePartHigher "1.5.0" "2.0.0") ∧
    mgrCurW.loadPluginWithConfig "dir/p.so" lowerPluginW none =
      some { manager := mgrCurW, err := none, freedNew := true } := by
  have h := c4_version_gate_amended mgrCurW "dir/p.so" lowerPluginW none curInstW
    rfl (by decide) (by decide) (by decide)
  exact ⟨h.1, h.2.1 (by decide)⟩

/-- Counterexample to claim C8 as stated: an override whose
`CircuitBreaker` field is non-zero (it differs from the zero value) but
has `Enabled = false` does not replace the default breaker configuration —
`GetPluginConfig` keeps the default. -/
theorem c8_merge_cex :
    ovCfgC8.circuitBreaker ≠ zeroCBCfg ∧
    (cfgC8.getPluginConfig "p").circuitBreaker = dfltCfgC8.circuitBreaker ∧
    dfltCfgC8.circuitBreaker ≠ ovCfgC8.circuitBreaker := by
  refine ⟨by decide, by decide, by decide⟩

/-- Claim C8 (amended): `GetPluginConfig` merges the override over the
default with: non-empty `InitArgs` replacing the default, `CircuitBreaker`
replacing the default exactly when the override breaker's `Enabled` flag
is true (not merely when the struct is non-zero), non-zero
`MaxConcurrentCalls` and `PluginTimeout` replacing the default (zero
keeps it, for validated configs), and option maps merged key-wise with the
override winning collisions. -/
theorem c8_merge_amended (c : Config) (name : String) (ov : PluginSpecificConfig)
    (hov : lookupA c.pluginConfigs name = some ov)
    (hval : validatePluginSpecificConfig ov = none)
    (hnd : (ov.options.map Prod.fst).Nodup) :
    c.getPluginConfig name = mergeConfig c.defaultPluginConfig ov ∧
    (c.getPluginConfig name).initArgs =
      (if ov.initArgs = [] then c.defaultPluginConfig.initArgs else ov.initArgs) ∧
    (c.getPluginConfig name).circuitBreaker =
      (if ov.circuitBreaker.enabled then ov.circuitBreaker
       else c.defaultPluginConfig.circuitBreaker) ∧
    (c.getPluginConfig name).maxConcurrentCalls =
      (if ov.maxConcurrentCalls = 0 then c.defaultPluginConfig.maxConcurrentCalls
       else ov.maxConcurrentCalls) ∧
    (c.getPluginConfig name).pluginTimeoutNs =
      (if ov.pluginTimeoutNs = 0 then c.defaultPluginConfig.pluginTimeoutNs
       else ov.pluginTimeoutNs) ∧
    (∀ k, lookupA (c.getPluginConfig name).options k =
      (lookupA ov.options k).orElse (fun _ => lookupA c.defaultPluginConfig.options k)) := by
  have hg : c.getPluginConfig name = mergeConfig c.defaultPluginConfig ov := by
    simp [Config.getPluginConfig, hov]
  have hmcc := validate_mcc_nonneg ov hval
  have hpt := validate_pt_nonneg ov hval
  refine ⟨hg, ?_, ?_, ?_, ?_, ?_⟩
  · rw [hg, mergeConfig_initArgs]
    by_cases h0 : ov.initArgs = []
    · rw [if_neg (by simp [h0]), if_pos h0]
    · rw [if_pos (List.length_pos.mpr h0), if_neg h0]
  · rw [hg, mergeConfig_circuitBreaker]
  · rw [hg, mergeConfig_mcc]
    by_cases h0 : ov.maxConcurrentCalls = 0
    · rw [if_neg (by omega), if_pos h0]
    · rw [if_pos (by omega), if_neg h0]
  · rw [hg, mergeConfig_pt]
    by_cases h0 : ov.pluginTimeoutNs = 0
    · rw [if_neg (by omega), if_pos h0]
    · rw [if_pos (by omega), if_neg h0]
  · intro k
    rw [hg, mergeConfig_options, lookupA_foldl_storeA ov.options hnd]

/-- Witness for the amended C8 at the concrete configs: the disabled
override breaker keeps the default, and the merged options prefer the
override's binding for the colliding key. -/
theorem c8_merge_amended_witness :
    (cfgC8.getPluginConfig "p").circuitBreaker =
      (if ovCfgC8.circuitBreaker.enabled then ovCfgC8.circuitBreaker
       else cfgC8.defaultPluginConfig.circuitBreaker) ∧
    lookupA (cfgC8.getPluginConfig "p").options "k1" =
      (lookupA ovCfgC8.options "k1").orElse
        (fun _ => lookupA cfgC8.defaultPluginConfig.options "k1") := by
  have h := c8_merge_amended cfgC8 "p" ovCfgC8 rfl (by decide) (by decide)
  exact ⟨h.2.2.1, h.2.2.2.2.2 "k1"⟩

end Chameleon
